import Mathlib

/-!
# Verification of the mockoon `commons-server` request-dispatch engine

Shallow embedding of `src/libs/server.ts` and `src/libs/utils.ts` of the
`@mockoon/commons-server` package, together with proofs about the embedded
functions.

Conventions of the embedding:
* JS strings are Lean `String`s; JS string truthiness is `s ≠ ""`.
* A JS value that may be `undefined` is an `Option`.
* A header value that may be a string or an array of strings
  (`string | string[]`) is the inductive `HValue`.
* Node's header stores (`express.Response`, `http.OutgoingMessage`) are
  case-insensitive: they are modelled as association lists keyed by the
  ASCII-lowercased header name.  The plain `http.IncomingMessage.headers`
  object is an association list with exact keys, because the source indexes
  it with the raw configured key.
* The external collaborators (the template engine `TemplateParser`, the
  `TestHeaderValidity` helper of `@mockoon/commons`, the i18n message
  catalog) are parameters of the embedding: a render that throws is `none`.
-/

/-- A configured header entry (`Header` of `@mockoon/commons`): key/value pair. -/
structure Header where
  key : String
  value : String
deriving DecidableEq, Repr

/-- A header value as stored on a Node target: `string | string[]`. -/
inductive HValue where
  | str : String → HValue
  | arr : List String → HValue
deriving DecidableEq, Repr

/-- JS truthiness of a possibly-absent header value: `undefined` and `""` are
falsy, every array (even empty) is truthy. -/
def optTruthy : Option HValue → Bool
  | none => false
  | some (.str s) => s ≠ ""
  | some (.arr _) => true

/-- The list of individual values held by a possibly-absent header value. -/
def valuesOf : Option HValue → List String
  | none => []
  | some (.str s) => [s]
  | some (.arr l) => l

/-- ASCII lowercasing of a header name (model of JS `toLowerCase` on the
ASCII names involved). -/
def lowerStr (s : String) : String := String.mk (s.data.map Char.toLower)

/-- A header store: association list from key to value. -/
abbrev HeaderMap := List (String × HValue)

/-- Lookup in a header store (exact key). -/
def mapGet (t : HeaderMap) (k : String) : Option HValue :=
  (t.find? (fun p => p.1 = k)).map (fun p => p.2)

/-- Replace-or-insert in a header store (exact key): a Node header store
holds at most one entry per key, so replacing the first occurrence models
`setHeader` / object-index assignment. -/
def mapSet : HeaderMap → String → HValue → HeaderMap
  | [], k, v => [(k, v)]
  | p :: rest, k, v => if p.1 = k then (k, v) :: rest else p :: mapSet rest k v

/-- Case-insensitive lookup, as done by `express.Response.get` and Node's
`OutgoingMessage.getHeader`. -/
def expressGet (t : HeaderMap) (k : String) : Option HValue := mapGet t (lowerStr k)

/-- Case-insensitive replace, as done by `express.Response.set` and Node's
`OutgoingMessage.setHeader`. -/
def expressSet (t : HeaderMap) (k : String) (v : HValue) : HeaderMap :=
  mapSet t (lowerStr k) v

/--
Embedding of `MockoonServer.appendHeaderValue` (server.ts):
if the header already has a value, concatenate the values into an array.
The JS guard `if (currentValue)` makes an absent or empty-string current
value fall through to the plain new value.
-/
def appendHeaderValue (currentValue : Option HValue) (newValue : String) : HValue :=
  match currentValue with
  | some (.arr cur) => .arr (cur ++ [newValue])
  | some (.str cur) => if cur = "" then .str newValue else .arr [cur, newValue]
  | none => .str newValue

/-- `express.Response.append`: combine with the present value then set. -/
def expressAppend (t : HeaderMap) (k : String) (v : String) : HeaderMap :=
  expressSet t k (appendHeaderValue (expressGet t k) v)

/-- The external hooks that `parseHeader` consults: the template engine
(`TemplateParser`, `none` models a throw), `TestHeaderValidity` of
`@mockoon/commons` (returns `true` when the header name is invalid), and the
fixed `HEADER_PARSING_ERROR` message of the i18n catalog. -/
structure RenderCtx where
  render : String → Option String
  testHeaderValidity : String → Bool
  headerParsingError : String

/--
Embedding of `MockoonServer.parseHeader` (server.ts): verify a header's
validity and render its value.  Returns `none` (JS `null`) when the key is
empty, the value is empty, or the key fails `TestHeaderValidity`; substitutes
the fixed error message when rendering throws.
-/
def parseHeader (ctx : RenderCtx) (header : Header) : Option String :=
  if header.key ≠ "" ∧ header.value ≠ "" ∧ ctx.testHeaderValidity header.key = false then
    match ctx.render header.value with
    | some v => some v
    | none => some ctx.headerParsingError
  else
    none

/-- One application step of `setHeaders` on an `express.Response` target:
`Content-Type` (case-insensitively) is `set`, every other key is `append`ed. -/
def applyHeaderExpress (t : HeaderMap) (k : String) (v : String) : HeaderMap :=
  if lowerStr k = "content-type" then expressSet t k (.str v) else expressAppend t k v

/-- Embedding of `MockoonServer.setHeaders` specialised to the
`express.Response` target (the `target.set` branch of the source). -/
def setHeadersExpress (ctx : RenderCtx) : List Header → HeaderMap → HeaderMap
  | [], t => t
  | h :: rest, t =>
    match parseHeader ctx h with
    | none => setHeadersExpress ctx rest t
    | some v => setHeadersExpress ctx rest (applyHeaderExpress t h.key v)

/-- One application step of `setHeaders` on the proxied outgoing request:
`setHeader(key, appendHeaderValue(getHeader(key), value))`, no special case. -/
def applyHeaderOutgoing (t : HeaderMap) (k : String) (v : String) : HeaderMap :=
  expressSet t k (appendHeaderValue (expressGet t k) v)

/-- Embedding of `MockoonServer.setHeaders` specialised to the proxied
`http.OutgoingMessage` target (the `target.setHeader` branch of the source). -/
def setHeadersOutgoing (ctx : RenderCtx) : List Header → HeaderMap → HeaderMap
  | [], t => t
  | h :: rest, t =>
    match parseHeader ctx h with
    | none => setHeadersOutgoing ctx rest t
    | some v => setHeadersOutgoing ctx rest (applyHeaderOutgoing t h.key v)

/-- One application step of `setHeaders` on the proxied incoming response:
`target.headers[key] = appendHeaderValue(target.headers[key], value)` with the
raw (not lowercased) configured key, no special case. -/
def applyHeaderIncoming (t : HeaderMap) (k : String) (v : String) : HeaderMap :=
  mapSet t k (appendHeaderValue (mapGet t k) v)

/-- Embedding of `MockoonServer.setHeaders` specialised to the proxied
`http.IncomingMessage` target (the last branch of the source). -/
def setHeadersIncoming (ctx : RenderCtx) : List Header → HeaderMap → HeaderMap
  | [], t => t
  | h :: rest, t =>
    match parseHeader ctx h with
    | none => setHeadersIncoming ctx rest t
    | some v => setHeadersIncoming ctx rest (applyHeaderIncoming t h.key v)

/-- Number of Content-Type values held by a (case-insensitive) target. -/
def ctCount (t : HeaderMap) : Nat := (valuesOf (mapGet t "content-type")).length

/-- A concrete render context: identity template engine, every header name
accepted as valid, fixed error text. -/
def ctx0 : RenderCtx :=
  { render := fun s => some s, testHeaderValidity := fun _ => false,
    headerParsingError := "header parsing error" }

/-- A render context whose template engine always throws. -/
def ctxFail : RenderCtx :=
  { render := fun _ => none, testHeaderValidity := fun _ => false,
    headerParsingError := "header parsing error" }

/-! ## Path normalization (`deduplicateSlashes`) -/

/--
Embedding of the `deduplicateSlashes` middleware (server.ts):
the global greedy regex rewrite of `request.url` that sends every run of two
or more slashes to a single slash, i.e. every
maximal run of two or more consecutive slash characters is replaced by a
single slash.  Collapsing adjacent duplicate slashes pairwise realises the
global greedy regex replacement.
-/
def dedupSlashes : List Char → List Char
  | [] => []
  | [c] => [c]
  | c :: d :: cs =>
    if c = '/' && d = '/' then dedupSlashes (d :: cs) else c :: dedupSlashes (d :: cs)

/-- String-level wrapper of the middleware's URL rewrite. -/
def deduplicateSlashes (url : String) : String := String.mk (dedupSlashes url.data)

/-- Helper for the spec-side formulation: drop every character that is a
slash whose nearest written predecessor is also a slash. -/
def collapseSpecGo : Char → List Char → List Char
  | _, [] => []
  | prev, c :: cs =>
    if prev = '/' && c = '/' then collapseSpecGo prev cs else c :: collapseSpecGo c cs

/-- Spec-side formulation of path normalization: from every maximal run of
consecutive slashes only the first slash is kept, so a run of two or more
becomes a single slash and all other characters are untouched. -/
def collapseSpec : List Char → List Char
  | [] => []
  | c :: cs => c :: collapseSpecGo c cs

/-- The ordered middleware pipeline installed by `MockoonServer.start`. -/
inductive PipelineStage where
  | emitEvent
  | delayResponse
  | deduplicateSlashesStage
  | cookieParsing
  | parseBody
  | logRequest
  | setResponseHeaders
  | routes
  | cors
  | proxy
  | errorHandler
deriving DecidableEq, Repr

/-- The registration order of `server.use`/route/cors/proxy calls in
`MockoonServer.start` (server.ts). -/
def startPipeline : List PipelineStage :=
  [.emitEvent, .delayResponse, .deduplicateSlashesStage, .cookieParsing, .parseBody,
   .logRequest, .setResponseHeaders, .routes, .cors, .proxy, .errorHandler]

/-! ## Environment, routes, refresh and the per-route handler -/

/-- A candidate response of a route (`RouteResponse` of `@mockoon/commons`),
restricted to the fields the dispatch logic reads. -/
structure RouteResponse where
  uuid : String
  statusCode : Nat
  body : String
  latency : Nat
deriving DecidableEq, Repr

/-- A declared route (`Route` of `@mockoon/commons`), restricted to the
fields the dispatch logic reads. -/
structure Route where
  uuid : String
  enabled : Bool
  method : String
  endpoint : String
  responses : List RouteResponse
  randomResponse : Bool
  sequentialResponse : Bool
deriving DecidableEq, Repr

/-- The mock definition (`Environment` of `@mockoon/commons`), restricted to
the fields the embedded functions read.  An absent `uuid` is the empty
string (JS falsy). -/
structure Environment where
  uuid : String
  latency : Nat
  routes : List Route
  proxyMode : Bool
  proxyHost : String
  endpointPrefix : String
deriving DecidableEq, Repr

/-- The options bag (`MockoonServerOptions`): an optional refresh function
`(uuid) -> Environment | undefined`. -/
structure ServerOptions where
  refreshEnvironmentFunction : Option (String → Option Environment)

/--
Embedding of `MockoonServer.refreshEnvironment` (server.ts): when a refresh
function is configured and the current environment has a (truthy) uuid, ask
it for an updated environment; keep the previous environment when it
returns nothing.
-/
def refreshEnvironment (opts : ServerOptions) (env : Environment) : Environment :=
  match opts.refreshEnvironmentFunction with
  | some f =>
    if env.uuid ≠ "" then
      match f env.uuid with
      | some updatedEnvironment => updatedEnvironment
      | none => env
    else env
  | none => env

/--
Embedding of `MockoonServer.getRefreshedRoute` (server.ts): with a refresh
function and a (truthy) environment uuid, look the declared route up by its
stable uuid in the current environment's route list; otherwise return the
declared route itself.
-/
def getRefreshedRoute (opts : ServerOptions) (env : Environment)
    (currentRoute : Route) : Option Route :=
  match opts.refreshEnvironmentFunction with
  | some _ =>
    if env.uuid ≠ "" then
      env.routes.find? (fun route => route.uuid = currentRoute.uuid)
    else
      some currentRoute
  | none => some currentRoute

/-- The express response object as far as the embedded code observes it. -/
structure MockResponse where
  headers : HeaderMap
  statusCode : Nat
  body : String
  sent : Option String
  routeUUID : Option String
  routeResponseUUID : Option String
deriving DecidableEq, Repr

/-- Fixed i18n message `Texts.EN.MESSAGES.ROUTE_NO_LONGER_EXISTS` (the i18n
catalog is outside the excerpt; the claims depend only on the message being
a fixed string). -/
def ROUTE_NO_LONGER_EXISTS : String := "Route no longer exists"

/-- Fixed i18n message prefix `Texts.EN.MESSAGES.PROXY_ERROR`. -/
def PROXY_ERROR_TEXT : String := "An error occured while trying to proxy to "

/--
Embedding of `MockoonServer.sendError` (server.ts): set Content-Type to
text/plain, record the message as the response body, set the status when one
is provided, and send the message.
-/
def sendError (response : MockResponse) (errorMessage : String)
    (status : Option Nat) : MockResponse :=
  let r1 : MockResponse :=
    { response with headers := expressSet response.headers "Content-Type" (.str "text/plain") }
  let r2 : MockResponse := { r1 with body := errorMessage }
  let r3 : MockResponse :=
    match status with
    | some s => { r2 with statusCode := s }
    | none => r2
  { r3 with sent := some errorMessage }

/-- The mutable state captured by one registered route handler closure:
the server's current environment and the closure-local `requestNumber`
(initialised to 1 by `setRoutes`). -/
structure HandlerState where
  env : Environment
  requestNumber : Nat
deriving DecidableEq, Repr

/-- Outcome of one invocation of the per-route handler, up to response
selection: either the route-gone error response was sent, or a response was
selected for the request. -/
inductive HandlerResult where
  | errorSent (response : MockResponse)
  | selected (choice : Option RouteResponse)
deriving DecidableEq, Repr

/--
Embedding of the per-route request handler registered by
`MockoonServer.setRoutes` (server.ts), up to response selection: refresh the
environment, re-find the route by uuid, send a fixed 404 if it is gone
(without touching the counter), otherwise invoke the response selector with
the current `requestNumber` and then increment the counter by one.  The
selector is a parameter (`select route counter`).
-/
def handlerStep (select : Route → Nat → Option RouteResponse) (opts : ServerOptions)
    (declaredRoute : Route) (response : MockResponse) (s : HandlerState) :
    HandlerResult × HandlerState :=
  let env := refreshEnvironment opts s.env
  match getRefreshedRoute opts env declaredRoute with
  | none =>
    (.errorSent (sendError response ROUTE_NO_LONGER_EXISTS (some 404)),
     { env := env, requestNumber := s.requestNumber })
  | some currentRoute =>
    (.selected (select currentRoute s.requestNumber),
     { env := env, requestNumber := s.requestNumber + 1 })

/-- Iterate the per-route handler over a sequence of incoming requests,
collecting each request's outcome. -/
def handlerRun (select : Route → Nat → Option RouteResponse) (opts : ServerOptions)
    (declaredRoute : Route) (response : MockResponse) :
    Nat → HandlerState → List HandlerResult × HandlerState
  | 0, s => ([], s)
  | n + 1, s =>
    let step := handlerStep select opts declaredRoute response s
    let rest := handlerRun select opts declaredRoute response n step.2
    (step.1 :: rest.1, rest.2)

/--
Modelled from the spec: the Response Selector
(`ResponseRulesInterpreter.chooseResponse`, whose source file is not part of
the excerpt).  Following the spec's algorithm: if `sequentialResponse`, pick
`responses[counter mod len(responses)]`; else if `randomResponse`, pick a
random index (abstracted as the external `randomPick` function); else
delegate to rule evaluation (abstracted as the external `rulePick`
function).
-/
def chooseResponse (randomPick : Nat → Nat)
    (rulePick : List RouteResponse → Option RouteResponse)
    (route : Route) (counter : Nat) : Option RouteResponse :=
  if route.sequentialResponse then
    route.responses[counter % route.responses.length]?
  else if route.randomResponse then
    route.responses[randomPick route.responses.length]?
  else
    rulePick route.responses

/-- Error kinds (`ServerErrorCodes` of `@mockoon/commons`) emitted on the
event bus. -/
inductive ServerErrorCode where
  | UNKNOWN_SERVER_ERROR
  | PORT_ALREADY_USED
  | PORT_INVALID
  | REQUEST_BODY_PARSE
  | ROUTE_CREATION_ERROR
  | ROUTE_CREATION_ERROR_REGEX
  | ROUTE_FILE_SERVING_ERROR
  | ROUTE_SERVING_ERROR
  | PROXY_ERROR
deriving DecidableEq, Repr

/-- An emitted `error` event: its kind and the stringified underlying error. -/
structure EmittedError where
  code : ServerErrorCode
  underlying : String
deriving DecidableEq, Repr

/--
Embedding of the `onError` hook installed by `MockoonServer.enableProxy`
(server.ts): emit an `error` event with kind `PROXY_ERROR` carrying the
underlying error, and send a 504 whose body is the fixed proxy-error text
followed by the configured proxy host, the request's url and the error's
text.
-/
def proxyOnError (env : Environment) (errorText : String) (requestUrl : String)
    (response : MockResponse) : EmittedError × MockResponse :=
  (⟨.PROXY_ERROR, errorText⟩,
   sendError response
     (PROXY_ERROR_TEXT ++ env.proxyHost ++ requestUrl ++ ": " ++ errorText)
     (some 504))

/-! ## Concrete fixtures -/

def respA : RouteResponse := ⟨"resp-a", 200, "pong", 0⟩

def respB : RouteResponse := ⟨"resp-b", 201, "pong2", 0⟩

/-- An enabled route in sequential-selection mode with two responses. -/
def routeSeq : Route := ⟨"route-1", true, "get", "ping", [respA, respB], false, true⟩

def envA : Environment := ⟨"env-a", 0, [routeSeq], false, "", ""⟩

def envB : Environment := ⟨"env-b", 0, [], false, "", ""⟩

def mockRes0 : MockResponse := ⟨[], 200, "", none, none, none⟩

def optsNone : ServerOptions := ⟨none⟩

/-- Options whose refresh function always returns nothing. -/
def optsStale : ServerOptions := ⟨some (fun _ => none)⟩

/-- A declared route whose uuid appears in no environment route list used
by the fixtures. -/
def routeGhost : Route := ⟨"route-ghost", true, "get", "gone", [respA], false, false⟩

/-! ## Proxy failure handling (claim C7) -/

/-- Substring containment on Lean strings. -/
def strContains (s sub : String) : Prop := ∃ l r, s = l ++ sub ++ r

/-! ## Transaction construction (claim C9) -/

/--
Embedding of `TransformHeaders` (utils.ts): turn a Node headers object into
the Header list, joining array values with a comma and mapping an undefined
value to the empty string.
-/
def TransformHeaders (headers : List (String × Option HValue)) : List Header :=
  headers.map (fun p =>
    match p.2 with
    | none => ⟨p.1, ""⟩
    | some (.str s) => ⟨p.1, s⟩
    | some (.arr vs) => ⟨p.1, String.intercalate "," vs⟩)

/-- Embedding of the `AscSort` comparator (utils.ts): negative when the
first key is smaller, positive otherwise. -/
def AscSort (a b : Header) : Int := if a.key < b.key then -1 else 1

/-- The order realised by the JS stable sort under the `AscSort` comparator:
`a` may be placed before `b` exactly when the comparator does not order `b`
strictly first. -/
def ascLe (a b : Header) : Bool := !(decide (AscSort b a < 0))

/-- `.sort(AscSort)` of utils.ts: a merge sort under `ascLe`. -/
def jsSortAsc (l : List Header) : List Header := l.mergeSort ascLe

/-- The express request object as far as `CreateTransaction` observes it. -/
structure ExpressRequest where
  method : String
  originalUrl : String
  route : Option String
  params : List (String × String)
  query : List (String × String)
  body : String
  headers : List (String × Option HValue)
  proxied : Bool

/-- The request part of a `Transaction`. -/
structure TransactionRequest where
  method : String
  urlPath : String
  route : Option String
  params : List (String × String)
  queryParams : List (String × String)
  body : String
  headers : List Header

/-- The response part of a `Transaction`. -/
structure TransactionResponse where
  statusCode : Nat
  headers : List Header
  body : String

/-- A completed request/response record (`Transaction` of `@mockoon/commons`). -/
structure Transaction where
  request : TransactionRequest
  response : TransactionResponse
  routeResponseUUID : Option String
  routeUUID : Option String
  proxied : Bool

/--
Embedding of `CreateTransaction` (utils.ts).  The WHATWG URL parsing of
`request.originalUrl` is external and abstracted as `urlPathOf`; both header
lists go through `TransformHeaders` and are sorted with the `AscSort`
comparator.
-/
def CreateTransaction (urlPathOf : String → String) (request : ExpressRequest)
    (response : MockResponse) : Transaction :=
  { request :=
    { method := request.method
      urlPath := urlPathOf request.originalUrl
      route := request.route
      params := request.params
      queryParams := request.query
      body := request.body
      headers := jsSortAsc (TransformHeaders request.headers) }
    response :=
    { statusCode := response.statusCode
      headers := jsSortAsc (TransformHeaders
        (response.headers.map (fun p => (p.1, some p.2))))
      body := response.body }
    routeResponseUUID := response.routeResponseUUID
    routeUUID := response.routeUUID
    proxied := request.proxied }

/-- A request fixture carrying an array-valued header. -/
def reqFix : ExpressRequest :=
  ⟨"GET", "/ping", some "/ping", [], [], "",
   [("b", some (.arr ["1", "2"])), ("a", some (.str "x"))], false⟩

/-- A response fixture carrying an array-valued header. -/
def resFix : MockResponse :=
  ⟨[("set-cookie", .arr ["s1", "s2"])], 200, "pong", some "pong", none, none⟩

/-! ## Basic lemmas about the header stores -/

theorem mapGet_cons (p : String × HValue) (t : HeaderMap) (k : String) :
    mapGet (p :: t) k = if p.1 = k then some p.2 else mapGet t k := by
  by_cases h : p.1 = k <;> simp [mapGet, List.find?_cons, h]

theorem mapGet_mapSet_self (t : HeaderMap) (k : String) (v : HValue) :
    mapGet (mapSet t k v) k = some v := by
  induction t with
  | nil => simp [mapSet, mapGet, List.find?_cons]
  | cons p rest ih =>
    by_cases h : p.1 = k
    · simp [mapSet, h, mapGet, List.find?_cons]
    · simp [mapSet, h, mapGet_cons, ih]

theorem mapGet_mapSet_ne (t : HeaderMap) {k₀ k : String} (h : k₀ ≠ k) (v : HValue) :
    mapGet (mapSet t k₀ v) k = mapGet t k := by
  induction t with
  | nil => simp [mapSet, mapGet, List.find?_cons, h]
  | cons p rest ih =>
    by_cases hp : p.1 = k₀
    · simp only [mapSet, hp, if_true, reduceIte]
      rw [mapGet_cons, mapGet_cons]
      rw [if_neg h, if_neg (by rw [hp]; exact h)]
    · simp [mapSet, hp, mapGet_cons, ih]

theorem optTruthy_appendHeaderValue (cur : Option HValue) (v : String)
    (h : optTruthy cur = true) :
    optTruthy (some (appendHeaderValue cur v)) = true := by
  match cur with
  | none => simp [optTruthy] at h
  | some (.str s) =>
    have hs : s ≠ "" := by simpa [optTruthy] using h
    simp [appendHeaderValue, hs, optTruthy]
  | some (.arr l) => simp [appendHeaderValue, optTruthy]

theorem valuesOf_appendHeaderValue (cur : Option HValue) (v : String)
    (h : optTruthy cur = true) :
    valuesOf (some (appendHeaderValue cur v)) = valuesOf cur ++ [v] := by
  match cur with
  | none => simp [optTruthy] at h
  | some (.str s) =>
    have hs : s ≠ "" := by simpa [optTruthy] using h
    simp [appendHeaderValue, hs, valuesOf]
  | some (.arr l) => simp [appendHeaderValue, valuesOf]

/-- Combining a header value onto a store only extends the value lists already
present: for any observed key, the previous values stay as a prefix. -/
theorem mapAppend_values (t : HeaderMap) (k₀ k : String) (v : String)
    (htr : optTruthy (mapGet t k) = true) :
    optTruthy (mapGet (mapSet t k₀ (appendHeaderValue (mapGet t k₀) v)) k) = true ∧
    ∃ extra, valuesOf (mapGet (mapSet t k₀ (appendHeaderValue (mapGet t k₀) v)) k)
      = valuesOf (mapGet t k) ++ extra := by
  by_cases hk : k₀ = k
  · subst hk
    rw [mapGet_mapSet_self]
    exact ⟨optTruthy_appendHeaderValue _ v htr,
      [v], valuesOf_appendHeaderValue _ v htr⟩
  · rw [mapGet_mapSet_ne t hk]
    exact ⟨htr, [], by simp⟩

/-! ## Skipping and error-substitution behaviour of `parseHeader` -/

theorem parseHeader_eq_none (ctx : RenderCtx) (h : Header)
    (hskip : h.key = "" ∨ h.value = "" ∨ ctx.testHeaderValidity h.key = true) :
    parseHeader ctx h = none := by
  unfold parseHeader
  rw [if_neg]
  rintro ⟨hk, hv, hval⟩
  rcases hskip with hs | hs | hs
  · exact hk hs
  · exact hv hs
  · rw [hval] at hs; cases hs

theorem parseHeader_render_fail (ctx : RenderCtx) (h : Header)
    (hk : h.key ≠ "") (hv : h.value ≠ "") (hval : ctx.testHeaderValidity h.key = false)
    (hfail : ctx.render h.value = none) :
    parseHeader ctx h = some ctx.headerParsingError := by
  unfold parseHeader
  rw [if_pos ⟨hk, hv, hval⟩, hfail]

theorem setHeadersExpress_erase (ctx : RenderCtx) {h : Header}
    (hp : parseHeader ctx h = none) (hs₁ hs₂ : List Header) (t : HeaderMap) :
    setHeadersExpress ctx (hs₁ ++ h :: hs₂) t = setHeadersExpress ctx (hs₁ ++ hs₂) t := by
  induction hs₁ generalizing t with
  | nil => simp [setHeadersExpress, hp]
  | cons h' rest ih =>
    cases hph : parseHeader ctx h' <;> simp [setHeadersExpress, hph, ih]

theorem setHeadersOutgoing_erase (ctx : RenderCtx) {h : Header}
    (hp : parseHeader ctx h = none) (hs₁ hs₂ : List Header) (t : HeaderMap) :
    setHeadersOutgoing ctx (hs₁ ++ h :: hs₂) t = setHeadersOutgoing ctx (hs₁ ++ hs₂) t := by
  induction hs₁ generalizing t with
  | nil => simp [setHeadersOutgoing, hp]
  | cons h' rest ih =>
    cases hph : parseHeader ctx h' <;> simp [setHeadersOutgoing, hph, ih]

theorem setHeadersIncoming_erase (ctx : RenderCtx) {h : Header}
    (hp : parseHeader ctx h = none) (hs₁ hs₂ : List Header) (t : HeaderMap) :
    setHeadersIncoming ctx (hs₁ ++ h :: hs₂) t = setHeadersIncoming ctx (hs₁ ++ hs₂) t := by
  induction hs₁ generalizing t with
  | nil => simp [setHeadersIncoming, hp]
  | cons h' rest ih =>
    cases hph : parseHeader ctx h' <;> simp [setHeadersIncoming, hph, ih]

/--
Claim C3: a header whose key is empty, whose value is empty, or whose key
fails HTTP header-name validity is silently skipped by the Header Merger:
`parseHeader` yields `null` for it, the target is left unchanged for that
header on all three target shapes, and all remaining headers are still
applied (removing the bad header from the list gives the same result).  The
embedded functions are total, so no error is raised or emitted.
-/
theorem c3_skip_invalid_headers (ctx : RenderCtx) (h : Header)
    (hs₁ hs₂ : List Header) (t₁ t₂ t₃ : HeaderMap)
    (hskip : h.key = "" ∨ h.value = "" ∨ ctx.testHeaderValidity h.key = true) :
    parseHeader ctx h = none ∧
    setHeadersExpress ctx (hs₁ ++ h :: hs₂) t₁ = setHeadersExpress ctx (hs₁ ++ hs₂) t₁ ∧
    setHeadersOutgoing ctx (hs₁ ++ h :: hs₂) t₂ = setHeadersOutgoing ctx (hs₁ ++ hs₂) t₂ ∧
    setHeadersIncoming ctx (hs₁ ++ h :: hs₂) t₃ = setHeadersIncoming ctx (hs₁ ++ hs₂) t₃ := by
  have hp := parseHeader_eq_none ctx h hskip
  exact ⟨hp, setHeadersExpress_erase ctx hp hs₁ hs₂ t₁,
    setHeadersOutgoing_erase ctx hp hs₁ hs₂ t₂,
    setHeadersIncoming_erase ctx hp hs₁ hs₂ t₃⟩

theorem c3_witness :
    parseHeader ctx0 ⟨"", "v"⟩ = none ∧
    setHeadersExpress ctx0 ([⟨"X-A", "1"⟩] ++ ⟨"", "v"⟩ :: []) []
      = setHeadersExpress ctx0 ([⟨"X-A", "1"⟩] ++ []) [] ∧
    setHeadersOutgoing ctx0 ([⟨"X-A", "1"⟩] ++ ⟨"", "v"⟩ :: []) []
      = setHeadersOutgoing ctx0 ([⟨"X-A", "1"⟩] ++ []) [] ∧
    setHeadersIncoming ctx0 ([⟨"X-A", "1"⟩] ++ ⟨"", "v"⟩ :: []) []
      = setHeadersIncoming ctx0 ([⟨"X-A", "1"⟩] ++ []) [] :=
  c3_skip_invalid_headers ctx0 ⟨"", "v"⟩ [⟨"X-A", "1"⟩] [] [] [] [] (Or.inl rfl)

/--
Claim C4: when template rendering of a header value fails (the render throws),
`parseHeader` substitutes the fixed configured error-message text as the
header's value, the header is still applied to the target with that
substituted value (on each of the three target shapes), and application of
the remaining headers continues; the failure never aborts `setHeaders`.
-/
theorem c4_render_failure_substitution (ctx : RenderCtx) (h : Header)
    (rest : List Header) (t₁ t₂ t₃ : HeaderMap)
    (hk : h.key ≠ "") (hv : h.value ≠ "") (hval : ctx.testHeaderValidity h.key = false)
    (hfail : ctx.render h.value = none) :
    parseHeader ctx h = some ctx.headerParsingError ∧
    setHeadersExpress ctx (h :: rest) t₁
      = setHeadersExpress ctx rest (applyHeaderExpress t₁ h.key ctx.headerParsingError) ∧
    setHeadersOutgoing ctx (h :: rest) t₂
      = setHeadersOutgoing ctx rest (applyHeaderOutgoing t₂ h.key ctx.headerParsingError) ∧
    setHeadersIncoming ctx (h :: rest) t₃
      = setHeadersIncoming ctx rest (applyHeaderIncoming t₃ h.key ctx.headerParsingError) := by
  have hp := parseHeader_render_fail ctx h hk hv hval hfail
  exact ⟨hp, by simp [setHeadersExpress, hp], by simp [setHeadersOutgoing, hp],
    by simp [setHeadersIncoming, hp]⟩

theorem c4_witness :
    parseHeader ctxFail ⟨"X-A", "{bad}"⟩ = some ctxFail.headerParsingError ∧
    setHeadersExpress ctxFail (⟨"X-A", "{bad}"⟩ :: []) []
      = setHeadersExpress ctxFail [] (applyHeaderExpress [] "X-A" ctxFail.headerParsingError) ∧
    setHeadersOutgoing ctxFail (⟨"X-A", "{bad}"⟩ :: []) []
      = setHeadersOutgoing ctxFail [] (applyHeaderOutgoing [] "X-A" ctxFail.headerParsingError) ∧
    setHeadersIncoming ctxFail (⟨"X-A", "{bad}"⟩ :: []) []
      = setHeadersIncoming ctxFail [] (applyHeaderIncoming [] "X-A" ctxFail.headerParsingError) :=
  c4_render_failure_substitution ctxFail ⟨"X-A", "{bad}"⟩ [] [] [] []
    (by decide) (by decide) rfl rfl

/-! ## Content-Type and multi-value behaviour of the Header Merger -/

theorem ctCount_applyHeaderExpress (t : HeaderMap) (k v : String) :
    ctCount (applyHeaderExpress t k v) ≤ max 1 (ctCount t) := by
  unfold applyHeaderExpress
  by_cases hk : lowerStr k = "content-type"
  · rw [if_pos hk]
    unfold ctCount expressSet
    rw [hk, mapGet_mapSet_self]
    exact le_max_left _ _
  · rw [if_neg hk]
    unfold ctCount expressAppend expressSet
    rw [mapGet_mapSet_ne t hk]
    exact le_max_right _ _

theorem setHeadersExpress_ctCount (ctx : RenderCtx) (hs : List Header) :
    ∀ t, ctCount (setHeadersExpress ctx hs t) ≤ max 1 (ctCount t) := by
  induction hs with
  | nil => intro t; simp [setHeadersExpress]
  | cons h rest ih =>
    intro t
    cases hp : parseHeader ctx h with
    | none => simp only [setHeadersExpress, hp]; exact ih t
    | some v =>
      simp only [setHeadersExpress, hp]
      have h1 := ih (applyHeaderExpress t h.key v)
      have h2 : max 1 (ctCount (applyHeaderExpress t h.key v)) ≤ max 1 (max 1 (ctCount t)) :=
        max_le_max (le_refl 1) (ctCount_applyHeaderExpress t h.key v)
      have h3 : max 1 (max 1 (ctCount t)) = max 1 (ctCount t) := by
        rw [← max_assoc, max_self]
      exact le_trans h1 (le_trans h2 (le_of_eq h3))

theorem applyHeaderExpress_values (t : HeaderMap) (k₀ k v : String)
    (hct : lowerStr k ≠ "content-type")
    (htr : optTruthy (expressGet t k) = true) :
    optTruthy (expressGet (applyHeaderExpress t k₀ v) k) = true ∧
    ∃ extra, valuesOf (expressGet (applyHeaderExpress t k₀ v) k)
      = valuesOf (expressGet t k) ++ extra := by
  unfold applyHeaderExpress
  by_cases hk : lowerStr k₀ = "content-type"
  · rw [if_pos hk]
    unfold expressSet expressGet
    rw [mapGet_mapSet_ne t (by intro he; exact hct (by rw [← he]; exact hk))]
    exact ⟨htr, [], by simp⟩
  · rw [if_neg hk]
    unfold expressAppend expressSet expressGet
    exact mapAppend_values t (lowerStr k₀) (lowerStr k) v htr

theorem setHeadersExpress_append_only (ctx : RenderCtx) (hs : List Header) :
    ∀ t k, lowerStr k ≠ "content-type" → optTruthy (expressGet t k) = true →
    optTruthy (expressGet (setHeadersExpress ctx hs t) k) = true ∧
    ∃ extra, valuesOf (expressGet (setHeadersExpress ctx hs t) k)
      = valuesOf (expressGet t k) ++ extra := by
  induction hs with
  | nil => intro t k _ htr; exact ⟨htr, [], by simp [setHeadersExpress]⟩
  | cons h rest ih =>
    intro t k hct htr
    cases hp : parseHeader ctx h with
    | none => simp only [setHeadersExpress, hp]; exact ih t k hct htr
    | some v =>
      simp only [setHeadersExpress, hp]
      obtain ⟨htr', e₁, he₁⟩ := applyHeaderExpress_values t h.key k v hct htr
      obtain ⟨htrF, e₂, he₂⟩ := ih (applyHeaderExpress t h.key v) k hct htr'
      exact ⟨htrF, e₁ ++ e₂, by rw [he₂, he₁, List.append_assoc]⟩

theorem setHeadersOutgoing_append_only (ctx : RenderCtx) (hs : List Header) :
    ∀ t k, optTruthy (expressGet t k) = true →
    optTruthy (expressGet (setHeadersOutgoing ctx hs t) k) = true ∧
    ∃ extra, valuesOf (expressGet (setHeadersOutgoing ctx hs t) k)
      = valuesOf (expressGet t k) ++ extra := by
  induction hs with
  | nil => intro t k htr; exact ⟨htr, [], by simp [setHeadersOutgoing]⟩
  | cons h rest ih =>
    intro t k htr
    cases hp : parseHeader ctx h with
    | none => simp only [setHeadersOutgoing, hp]; exact ih t k htr
    | some v =>
      simp only [setHeadersOutgoing, hp]
      have step := mapAppend_values t (lowerStr h.key) (lowerStr k) v htr
      obtain ⟨htr', e₁, he₁⟩ := step
      obtain ⟨htrF, e₂, he₂⟩ := ih (applyHeaderOutgoing t h.key v) k htr'
      exact ⟨htrF, e₁ ++ e₂, by rw [he₂]; unfold applyHeaderOutgoing expressSet expressGet; rw [he₁, List.append_assoc]⟩

theorem setHeadersIncoming_append_only (ctx : RenderCtx) (hs : List Header) :
    ∀ t k, optTruthy (mapGet t k) = true →
    optTruthy (mapGet (setHeadersIncoming ctx hs t) k) = true ∧
    ∃ extra, valuesOf (mapGet (setHeadersIncoming ctx hs t) k)
      = valuesOf (mapGet t k) ++ extra := by
  induction hs with
  | nil => intro t k htr; exact ⟨htr, [], by simp [setHeadersIncoming]⟩
  | cons h rest ih =>
    intro t k htr
    cases hp : parseHeader ctx h with
    | none => simp only [setHeadersIncoming, hp]; exact ih t k htr
    | some v =>
      simp only [setHeadersIncoming, hp]
      have step := mapAppend_values t h.key k v htr
      obtain ⟨htr', e₁, he₁⟩ := step
      obtain ⟨htrF, e₂, he₂⟩ := ih (applyHeaderIncoming t h.key v) k htr'
      exact ⟨htrF, e₁ ++ e₂, by rw [he₂]; unfold applyHeaderIncoming; rw [he₁, List.append_assoc]⟩

/--
Claim C1 (counterexample): on the outgoing proxied-request target shape,
`setHeaders` does NOT replace an existing `Content-Type` value: the
`target.setHeader` branch combines every key — Content-Type included — via
`appendHeaderValue`, leaving two Content-Type values on the target.
-/
theorem c1_counterexample :
    setHeadersOutgoing ctx0 [⟨"Content-Type", "b"⟩] [("content-type", HValue.str "a")]
      = [("content-type", HValue.arr ["a", "b"])] ∧
    ¬ ctCount (setHeadersOutgoing ctx0 [⟨"Content-Type", "b"⟩]
        [("content-type", HValue.str "a")]) ≤ 1 := by
  constructor
  · decide
  · decide

/--
Claim C1 (amended): on the express server-response target, a configured
`Content-Type` header (matched case-insensitively) replaces rather than
appends, so applying the Header Merger never leaves more than one
Content-Type value there (the count never exceeds the larger of 1 and what
the target already held), and every other key already present on that target
is combined into a multi-value array — the previously present values are
preserved as a prefix — rather than overwritten.  On the outgoing
proxied-request and incoming proxied-response targets there is no
Content-Type special case: every configured header, Content-Type included,
is combined with any existing value into a multi-value array.
-/
theorem c1_amended_header_merger (ctx : RenderCtx) (headers : List Header) :
    (∀ t, ctCount (setHeadersExpress ctx headers t) ≤ max 1 (ctCount t)) ∧
    (∀ t k, lowerStr k ≠ "content-type" → optTruthy (expressGet t k) = true →
      ∃ extra, valuesOf (expressGet (setHeadersExpress ctx headers t) k)
        = valuesOf (expressGet t k) ++ extra) ∧
    (∀ t k, optTruthy (expressGet t k) = true →
      ∃ extra, valuesOf (expressGet (setHeadersOutgoing ctx headers t) k)
        = valuesOf (expressGet t k) ++ extra) ∧
    (∀ t k, optTruthy (mapGet t k) = true →
      ∃ extra, valuesOf (mapGet (setHeadersIncoming ctx headers t) k)
        = valuesOf (mapGet t k) ++ extra) :=
  ⟨setHeadersExpress_ctCount ctx headers,
   fun t k hct htr => (setHeadersExpress_append_only ctx headers t k hct htr).2,
   fun t k htr => (setHeadersOutgoing_append_only ctx headers t k htr).2,
   fun t k htr => (setHeadersIncoming_append_only ctx headers t k htr).2⟩

theorem c1_witness :
    ctCount (setHeadersExpress ctx0 [⟨"X-A", "2"⟩] [("content-type", HValue.str "a")])
      ≤ max 1 (ctCount [("content-type", HValue.str "a")]) ∧
    ∃ extra, valuesOf (expressGet (setHeadersOutgoing ctx0 [⟨"X-A", "2"⟩]
        [("x-a", HValue.str "1")]) "X-A")
      = valuesOf (expressGet [("x-a", HValue.str "1")] "X-A") ++ extra :=
  ⟨(c1_amended_header_merger ctx0 [⟨"X-A", "2"⟩]).1 [("content-type", HValue.str "a")],
   (c1_amended_header_merger ctx0 [⟨"X-A", "2"⟩]).2.2.1 [("x-a", HValue.str "1")] "X-A"
     (by decide)⟩

theorem dedupSlashes_eq_go (cs : List Char) : ∀ c : Char,
    dedupSlashes (c :: cs) = c :: collapseSpecGo c cs := by
  induction cs with
  | nil => intro c; rfl
  | cons d cs ih =>
    intro c
    by_cases h : c = '/' ∧ d = '/'
    · obtain ⟨hc, hd⟩ := h
      subst hc
      subst hd
      have h1 : dedupSlashes ('/' :: '/' :: cs) = dedupSlashes ('/' :: cs) := by
        simp [dedupSlashes]
      rw [h1, ih '/']
      simp [collapseSpecGo]
    · have hb : (decide (c = '/') && decide (d = '/')) = false := by
        rcases not_and_or.mp h with hc | hd
        · simp [hc]
        · simp [hd]
      simp only [dedupSlashes, collapseSpecGo, hb, Bool.false_eq_true, if_false]
      rw [ih d]

/--
Claim C5: the path-normalization middleware replaces every maximal run of two
or more consecutive slash characters in the request URL with a single slash
(`dedupSlashes` agrees with the spec-side formulation that keeps only the
first slash of each run), it does so before route matching (it is registered
before the routes in the start pipeline), and in particular
a doubled and tripled slash in an api users path collapses as specified.
-/
theorem c5_deduplicate_slashes :
    (∀ url : String, deduplicateSlashes url = String.mk (collapseSpec url.data)) ∧
    deduplicateSlashes "/api//users///1" = "/api/users/1" ∧
    startPipeline.findIdx (fun s => s = .deduplicateSlashesStage)
      < startPipeline.findIdx (fun s => s = .routes) := by
  refine ⟨?_, by decide, by decide⟩
  intro url
  unfold deduplicateSlashes
  cases hd : url.data with
  | nil => rfl
  | cons c cs => rw [dedupSlashes_eq_go]; rfl

/-! ## Live refresh (claims C8, C10, C6) -/

/--
Claim C8: `refreshEnvironment` replaces the held Environment only when a
refresh function is configured, the current environment has a (truthy) uuid,
and the function returns a value; with no refresh function, with no uuid, or
when the function returns nothing, the previously held Environment is kept
unchanged.
-/
theorem c8_refresh_environment (opts : ServerOptions) (env : Environment) :
    (opts.refreshEnvironmentFunction = none → refreshEnvironment opts env = env) ∧
    (env.uuid = "" → refreshEnvironment opts env = env) ∧
    (∀ f, opts.refreshEnvironmentFunction = some f → f env.uuid = none →
      refreshEnvironment opts env = env) ∧
    (∀ f e', opts.refreshEnvironmentFunction = some f → env.uuid ≠ "" →
      f env.uuid = some e' → refreshEnvironment opts env = e') := by
  refine ⟨?_, ?_, ?_, ?_⟩
  · intro h; simp [refreshEnvironment, h]
  · intro h
    cases hf : opts.refreshEnvironmentFunction <;> simp [refreshEnvironment, hf, h]
  · intro f hf hres
    by_cases hu : env.uuid = "" <;> simp [refreshEnvironment, hf, hres, hu]
  · intro f e' hf hu hres
    simp [refreshEnvironment, hf, hu, hres]

theorem c8_witness :
    refreshEnvironment ⟨some (fun _ => some envB)⟩ envA = envB :=
  (c8_refresh_environment ⟨some (fun _ => some envB)⟩ envA).2.2.2
    (fun _ => some envB) envB rfl (by decide) rfl

/--
Claim C10: when no refresh function is configured, or the environment has no
uuid, `getRefreshedRoute` returns the declared route itself and never
`undefined` — even after the per-request environment refresh, which leaves
the environment unchanged in those cases — so the 404 route-gone branch of
the route handler is unreachable and the handler always proceeds to response
selection.
-/
theorem c10_route_never_gone_without_refresh
    (select : Route → Nat → Option RouteResponse) (opts : ServerOptions)
    (droute : Route) (resp : MockResponse) (s : HandlerState)
    (h : opts.refreshEnvironmentFunction = none ∨ s.env.uuid = "") :
    getRefreshedRoute opts (refreshEnvironment opts s.env) droute = some droute ∧
    (handlerStep select opts droute resp s).1
      = .selected (select droute s.requestNumber) := by
  have hg : getRefreshedRoute opts (refreshEnvironment opts s.env) droute = some droute := by
    rcases h with h | h
    · simp [getRefreshedRoute, h]
    · cases hf : opts.refreshEnvironmentFunction with
      | none => simp [getRefreshedRoute, hf]
      | some f =>
        have hre : refreshEnvironment opts s.env = s.env := by
          simp [refreshEnvironment, hf, h]
        rw [hre]
        simp [getRefreshedRoute, hf, h]
  exact ⟨hg, by simp [handlerStep, hg]⟩

theorem c10_witness :
    getRefreshedRoute optsNone (refreshEnvironment optsNone envA) routeGhost
      = some routeGhost ∧
    (handlerStep (chooseResponse id List.head?) optsNone routeGhost mockRes0
      ⟨envA, 1⟩).1 = .selected (chooseResponse id List.head? routeGhost 1) :=
  c10_route_never_gone_without_refresh (chooseResponse id List.head?) optsNone
    routeGhost mockRes0 ⟨envA, 1⟩ (Or.inl rfl)

/--
Claim C6: if, after the per-request environment refresh, the dispatched
route's stable uuid is no longer present in the current environment's route
list (refresh function configured and environment uuid truthy), the route
handler sends HTTP 404 with Content-Type text/plain, the fixed
route-no-longer-exists message as body, performs no response selection (the
outcome does not depend on the selector at all), and leaves the per-route
counter untouched.
-/
theorem c6_route_gone_404 (select select' : Route → Nat → Option RouteResponse)
    (opts : ServerOptions) (droute : Route) (resp : MockResponse) (s : HandlerState)
    (f : String → Option Environment)
    (hf : opts.refreshEnvironmentFunction = some f)
    (huuid : (refreshEnvironment opts s.env).uuid ≠ "")
    (hgone : ∀ r ∈ (refreshEnvironment opts s.env).routes, r.uuid ≠ droute.uuid) :
    handlerStep select opts droute resp s
      = (.errorSent (sendError resp ROUTE_NO_LONGER_EXISTS (some 404)),
         ⟨refreshEnvironment opts s.env, s.requestNumber⟩) ∧
    handlerStep select' opts droute resp s = handlerStep select opts droute resp s ∧
    (sendError resp ROUTE_NO_LONGER_EXISTS (some 404)).statusCode = 404 ∧
    expressGet (sendError resp ROUTE_NO_LONGER_EXISTS (some 404)).headers "Content-Type"
      = some (.str "text/plain") ∧
    (sendError resp ROUTE_NO_LONGER_EXISTS (some 404)).sent
      = some ROUTE_NO_LONGER_EXISTS ∧
    (sendError resp ROUTE_NO_LONGER_EXISTS (some 404)).body = ROUTE_NO_LONGER_EXISTS := by
  have hfind : (refreshEnvironment opts s.env).routes.find?
      (fun route => route.uuid = droute.uuid) = none :=
    List.find?_eq_none.mpr (by intro x hx; simpa using hgone x hx)
  have hg : getRefreshedRoute opts (refreshEnvironment opts s.env) droute = none := by
    simp [getRefreshedRoute, hf, huuid, hfind]
  refine ⟨by simp [handlerStep, hg], by simp [handlerStep, hg], by simp [sendError], ?_,
    by simp [sendError], by simp [sendError]⟩
  simp only [sendError, expressGet, expressSet]
  exact mapGet_mapSet_self _ _ _

theorem c6_witness :
    handlerStep (chooseResponse id List.head?) optsStale routeGhost mockRes0 ⟨envA, 1⟩
      = (.errorSent (sendError mockRes0 ROUTE_NO_LONGER_EXISTS (some 404)),
         ⟨refreshEnvironment optsStale envA, 1⟩) ∧
    handlerStep (fun _ _ => none) optsStale routeGhost mockRes0 ⟨envA, 1⟩
      = handlerStep (chooseResponse id List.head?) optsStale routeGhost mockRes0 ⟨envA, 1⟩ ∧
    (sendError mockRes0 ROUTE_NO_LONGER_EXISTS (some 404)).statusCode = 404 ∧
    expressGet (sendError mockRes0 ROUTE_NO_LONGER_EXISTS (some 404)).headers "Content-Type"
      = some (.str "text/plain") ∧
    (sendError mockRes0 ROUTE_NO_LONGER_EXISTS (some 404)).sent
      = some ROUTE_NO_LONGER_EXISTS ∧
    (sendError mockRes0 ROUTE_NO_LONGER_EXISTS (some 404)).body = ROUTE_NO_LONGER_EXISTS :=
  c6_route_gone_404 (chooseResponse id List.head?) (fun _ _ => none) optsStale
    routeGhost mockRes0 ⟨envA, 1⟩ (fun _ => none) rfl (by decide) (by decide)

/-! ## Sequential response selection (claim C2) -/

theorem handlerStep_noRefresh (select : Route → Nat → Option RouteResponse)
    (droute : Route) (resp : MockResponse) (env : Environment) (c : Nat) :
    handlerStep select ⟨none⟩ droute resp ⟨env, c⟩
      = (.selected (select droute c), ⟨env, c + 1⟩) := by
  simp [handlerStep, refreshEnvironment, getRefreshedRoute]

theorem handlerRun_noRefresh (select : Route → Nat → Option RouteResponse)
    (droute : Route) (resp : MockResponse) (m : Nat) :
    ∀ (env : Environment) (c : Nat),
    handlerRun select ⟨none⟩ droute resp m ⟨env, c⟩
      = ((List.range m).map (fun i => .selected (select droute (c + i))), ⟨env, c + m⟩) := by
  induction m with
  | zero => intro env c; simp [handlerRun]
  | succ n ih =>
    intro env c
    rw [List.range_succ_eq_map]
    simp only [handlerRun, handlerStep_noRefresh, ih env (c + 1), List.map_cons,
      List.map_map]
    refine Prod.ext ?_ ?_
    · simp only [Nat.add_zero]
      refine congrArg₂ List.cons rfl ?_
      refine congrArg (fun f => List.map f (List.range n)) ?_
      funext i
      simp [Function.comp, Nat.add_comm, Nat.add_assoc, Nat.add_left_comm]
    · simp [Nat.add_comm, Nat.add_assoc, Nat.add_left_comm]

/--
Claim C2 (counterexample): for the sequential route `routeSeq` with N = 2
responses, the first four requests do NOT select the responses in the cyclic
order 0,1,0,1: the closure counter starts at 1 and the spec's selector picks
`responses[counter mod N]`, so the first request already selects index 1.
-/
theorem c2_counterexample :
    (handlerRun (chooseResponse id List.head?) ⟨none⟩ routeSeq mockRes0 4 ⟨envA, 1⟩).1
      ≠ [.selected (some respA), .selected (some respB),
         .selected (some respA), .selected (some respB)] := by
  decide

/--
Claim C2 (amended): for every enabled route with `sequentialResponse` set
and N responses, the route handler supplies the Response Selector a
per-route counter that starts at 1 and is incremented by exactly one after
each dispatched request, so request k (k = 1, 2, ...) selects
`responses[k mod N]`: requests 1..2N select responses in the exact cyclic
order 1, 2, ..., N-1, 0, 1, 2, ..., N-1, 0 (not starting at index 0).
-/
theorem c2_amended_sequential (randomPick : Nat → Nat)
    (rulePick : List RouteResponse → Option RouteResponse)
    (route : Route) (resp : MockResponse) (env : Environment) (m k : Nat)
    (henabled : route.enabled = true) (hseq : route.sequentialResponse = true)
    (hk : k < m) :
    (handlerRun (chooseResponse randomPick rulePick) ⟨none⟩ route resp m ⟨env, 1⟩).1[k]?
      = some (.selected (route.responses[(k + 1) % route.responses.length]?)) ∧
    (handlerRun (chooseResponse randomPick rulePick) ⟨none⟩ route resp m
      ⟨env, 1⟩).2.requestNumber = m + 1 := by
  constructor
  · rw [handlerRun_noRefresh]
    simp only [List.getElem?_map, List.getElem?_range hk]
    simp [chooseResponse, hseq, Nat.add_comm]
  · rw [handlerRun_noRefresh]
    simp [Nat.add_comm]

theorem c2_witness :
    (handlerRun (chooseResponse id List.head?) ⟨none⟩ routeSeq mockRes0 4 ⟨envA, 1⟩).1[0]?
      = some (.selected (routeSeq.responses[(0 + 1) % routeSeq.responses.length]?)) ∧
    (handlerRun (chooseResponse id List.head?) ⟨none⟩ routeSeq mockRes0 4
      ⟨envA, 1⟩).2.requestNumber = 4 + 1 :=
  c2_amended_sequential id List.head? routeSeq mockRes0 envA 4 0 rfl rfl (by decide)

/--
Claim C7: on a transport-level proxy failure, the `onError` hook emits an
error event with kind `PROXY_ERROR` carrying the underlying error, and sends
a response with status 504, Content-Type text/plain, whose body (equal to
what was sent) contains the configured proxy target host, the request's url
and the underlying error's text.
-/
theorem c7_proxy_error_response (env : Environment) (errorText requestUrl : String)
    (resp : MockResponse) :
    (proxyOnError env errorText requestUrl resp).1 = ⟨.PROXY_ERROR, errorText⟩ ∧
    (proxyOnError env errorText requestUrl resp).2.statusCode = 504 ∧
    expressGet (proxyOnError env errorText requestUrl resp).2.headers "Content-Type"
      = some (.str "text/plain") ∧
    (proxyOnError env errorText requestUrl resp).2.sent
      = some (proxyOnError env errorText requestUrl resp).2.body ∧
    strContains (proxyOnError env errorText requestUrl resp).2.body env.proxyHost ∧
    strContains (proxyOnError env errorText requestUrl resp).2.body requestUrl ∧
    strContains (proxyOnError env errorText requestUrl resp).2.body errorText := by
  have hbody : (proxyOnError env errorText requestUrl resp).2.body
      = PROXY_ERROR_TEXT ++ env.proxyHost ++ requestUrl ++ ": " ++ errorText := by
    simp [proxyOnError, sendError]
  refine ⟨rfl, by simp [proxyOnError, sendError], ?_, by simp [proxyOnError, sendError], ?_, ?_, ?_⟩
  · simp only [proxyOnError, sendError, expressGet, expressSet]
    exact mapGet_mapSet_self _ _ _
  · exact ⟨PROXY_ERROR_TEXT, requestUrl ++ ": " ++ errorText,
      by rw [hbody]; simp [String.append_assoc]⟩
  · exact ⟨PROXY_ERROR_TEXT ++ env.proxyHost, ": " ++ errorText,
      by rw [hbody]; simp [String.append_assoc]⟩
  · exact ⟨PROXY_ERROR_TEXT ++ env.proxyHost ++ requestUrl ++ ": ", "",
      by rw [hbody]; simp [String.append_assoc]⟩

theorem ascLe_iff (a b : Header) : ascLe a b = true ↔ a.key ≤ b.key := by
  unfold ascLe AscSort
  by_cases h : b.key < a.key
  · rw [if_pos h]
    have h1 : (decide ((-1 : Int) < 0)) = true := by decide
    rw [h1]
    simp only [Bool.not_true, Bool.false_eq_true, false_iff, not_le]
    exact h
  · rw [if_neg h]
    have h1 : (decide ((1 : Int) < 0)) = false := by decide
    rw [h1]
    simp only [Bool.not_false]
    exact ⟨fun _ => le_of_not_lt h, fun _ => trivial⟩

theorem jsSortAsc_sorted (l : List Header) :
    List.Pairwise (fun a b => a.key ≤ b.key) (jsSortAsc l) := by
  have hp := @List.sorted_mergeSort Header ascLe
    (fun a b c hab hbc =>
      (ascLe_iff a c).mpr (le_trans ((ascLe_iff a b).mp hab) ((ascLe_iff b c).mp hbc)))
    (fun a b => by
      rcases le_total a.key b.key with h | h
      · simp [Bool.or_eq_true]
        exact Or.inl ((ascLe_iff a b).mpr h)
      · simp [Bool.or_eq_true]
        exact Or.inr ((ascLe_iff b a).mpr h))
    l
  exact hp.imp (fun {a b} h => (ascLe_iff a b).mp h)

theorem jsSortAsc_perm (l : List Header) : (jsSortAsc l).Perm l :=
  List.mergeSort_perm l ascLe

/--
Claim C9: in every Transaction built by `CreateTransaction`, both the
request header list and the response header list are sorted in ascending
order of header key (they are permutations of the transformed input header
lists, not in insertion order), and any header whose value is an array is
rendered as a single value joining the elements with a comma (such a joined
header is a member of the corresponding Transaction header list).
-/
theorem c9_transaction_headers_sorted (urlPathOf : String → String)
    (request : ExpressRequest) (response : MockResponse) :
    List.Pairwise (fun a b => a.key ≤ b.key)
      (CreateTransaction urlPathOf request response).request.headers ∧
    List.Pairwise (fun a b => a.key ≤ b.key)
      (CreateTransaction urlPathOf request response).response.headers ∧
    ((CreateTransaction urlPathOf request response).request.headers).Perm
      (TransformHeaders request.headers) ∧
    (∀ k vs, (k, some (HValue.arr vs)) ∈ request.headers →
      (⟨k, String.intercalate "," vs⟩ : Header)
        ∈ (CreateTransaction urlPathOf request response).request.headers) ∧
    (∀ k vs, (k, HValue.arr vs) ∈ response.headers →
      (⟨k, String.intercalate "," vs⟩ : Header)
        ∈ (CreateTransaction urlPathOf request response).response.headers) := by
  refine ⟨jsSortAsc_sorted _, jsSortAsc_sorted _, jsSortAsc_perm _, ?_, ?_⟩
  · intro k vs hmem
    have h1 : (⟨k, String.intercalate "," vs⟩ : Header)
        ∈ TransformHeaders request.headers :=
      List.mem_map_of_mem _ hmem
    exact (jsSortAsc_perm _).mem_iff.mpr h1
  · intro k vs hmem
    have h0 : ((k, some (HValue.arr vs)) : String × Option HValue)
        ∈ response.headers.map (fun p => (p.1, some p.2)) :=
      List.mem_map_of_mem _ hmem
    have h1 : (⟨k, String.intercalate "," vs⟩ : Header)
        ∈ TransformHeaders (response.headers.map (fun p => (p.1, some p.2))) :=
      List.mem_map_of_mem _ h0
    exact (jsSortAsc_perm _).mem_iff.mpr h1

theorem c9_witness :
    (⟨"b", String.intercalate "," ["1", "2"]⟩ : Header)
      ∈ (CreateTransaction id reqFix resFix).request.headers ∧
    (⟨"set-cookie", String.intercalate "," ["s1", "s2"]⟩ : Header)
      ∈ (CreateTransaction id reqFix resFix).response.headers :=
  ⟨(c9_transaction_headers_sorted id reqFix resFix).2.2.2.1 "b" ["1", "2"] (by decide),
   (c9_transaction_headers_sorted id reqFix resFix).2.2.2.2 "set-cookie" ["s1", "s2"]
     (by decide)⟩
